import Mathlib

/-!
Shallow embedding of the elastic-band catapult simulator
(source file: catapulta_Serrano_German.py).

Numbers held in object state are modelled as rationals (every Python float
value is a rational number, and all control-flow tests in the source compare
such state values), while the results of the square root and sine — the only
irrational-valued operations — live in the reals.  Fallible operations
(constructors that validate, methods that raise) return `Except PyError`.
-/

/-- Python exception kinds raised by the source: `ValueError` for parameter
validation failures, `RuntimeError` for operations on incomplete state. -/
inductive PyError : Type where
  | valueError : String → PyError
  | runtimeError : String → PyError
deriving DecidableEq

/-- Gravity constant, `G = 9.81` in the source. -/
def G : ℚ := 9.81

/-- State of a `Projectile` object: mass in kilograms and a display name. -/
structure Projectile : Type where
  mass : ℚ
  name : String
deriving DecidableEq

/-- Constructor of `Projectile`: raises `ValueError` when the mass is not
positive, otherwise stores mass and name. -/
def Projectile.make (mass_kg : ℚ) (name : String := "proyectil blando") :
    Except PyError Projectile :=
  if mass_kg ≤ 0 then .error (.valueError ("La masa debe ser positiva."))
  else .ok { mass := mass_kg, name := name }

/-- State of a `BandSystem` object: stiffness per band and number of bands. -/
structure BandSystem : Type where
  k_band : ℚ
  n_bands : ℤ
deriving DecidableEq

/-- Constructor of `BandSystem`: raises `ValueError` when `k_band ≤ 0` or
`n_bands < 1`. -/
def BandSystem.make (k_band : ℚ := 200) (n_bands : ℤ := 4) :
    Except PyError BandSystem :=
  if k_band ≤ 0 ∨ n_bands < 1 then .error (.valueError ("k_band > 0 y n_bands >= 1"))
  else .ok { k_band := k_band, n_bands := n_bands }

/-- Derived property `K_total = k_band * n_bands`, recomputed on access. -/
def BandSystem.K_total (b : BandSystem) : ℚ :=
  b.k_band * (b.n_bands : ℚ)

/-- State of a `CatapultArm` object: arm length in meters (display only). -/
structure CatapultArm : Type where
  length : ℚ
deriving DecidableEq

/-- Constructor of `CatapultArm`: raises `ValueError` when the length is not
positive. -/
def CatapultArm.make (length_m : ℚ := 0.2) : Except PyError CatapultArm :=
  if length_m ≤ 0 then .error (.valueError ("La longitud del brazo debe ser positiva."))
  else .ok { length := length_m }

/-- State of a `Catapult` object: a band system, an arm, the efficiency
factor, the optionally loaded projectile and the current pull distance. -/
structure Catapult : Type where
  bands : BandSystem
  arm : CatapultArm
  eficiencia : ℚ
  loaded_projectile : Option Projectile
  pull_distance : ℚ
deriving DecidableEq

/-- Constructor of `Catapult`: raises `ValueError` unless
`0 < eficiencia ≤ 1`; starts with no projectile and pull distance `0`. -/
def Catapult.make (band_system : BandSystem) (arm : CatapultArm)
    (eficiencia : ℚ := 0.35) : Except PyError Catapult :=
  if ¬(0 < eficiencia ∧ eficiencia ≤ 1) then
    .error (.valueError ("eficiencia debe estar en (0,1]."))
  else
    .ok { bands := band_system, arm := arm, eficiencia := eficiencia,
          loaded_projectile := none, pull_distance := 0 }

/-- The states the validated constructors can produce: efficiency in `(0,1]`
and a band system with positive per-band stiffness and at least one band. -/
abbrev Catapult.Valid (c : Catapult) : Prop :=
  0 < c.eficiencia ∧ c.eficiencia ≤ 1 ∧ 0 < c.bands.k_band ∧ 1 ≤ c.bands.n_bands

/-- Method `load`: replaces the loaded projectile reference unconditionally. -/
def Catapult.load (c : Catapult) (projectile : Projectile) : Catapult :=
  { c with loaded_projectile := some projectile }

/-- Method `set_pull`: raises `ValueError` when the distance is negative,
otherwise replaces `pull_distance` (the erroring call leaves the state of the
catapult untouched: no updated state is produced). -/
def Catapult.set_pull (c : Catapult) (distance_m : ℚ) : Except PyError Catapult :=
  if distance_m < 0 then
    .error (.valueError ("La distancia de tracción debe ser >= 0"))
  else
    .ok { c with pull_distance := distance_m }

/-- Method `stored_energy`: `E = 0.5 * K_total * x * x`. -/
def Catapult.stored_energy (c : Catapult) : ℚ :=
  0.5 * c.bands.K_total * c.pull_distance * c.pull_distance

/-- Model of `math.sqrt` on the rational-valued argument the source feeds to
it: raises `ValueError` (a math domain error) on a negative argument,
otherwise produces the real square root. -/
noncomputable def mathSqrt (x : ℚ) : Except PyError ℝ :=
  if x < 0 then .error (.valueError ("math domain error"))
  else .ok (Real.sqrt (x : ℝ))

/-- Model of `math.radians`: degrees to radians. -/
noncomputable def mathRadians (deg : ℚ) : ℝ :=
  (deg : ℝ) * Real.pi / 180

/-- Method `launch_velocity`: raises `RuntimeError` when no projectile is
loaded; returns `0.0` when the useful energy is not positive; otherwise
returns `sqrt(2 * E_useful / m)`. -/
noncomputable def Catapult.launch_velocity (c : Catapult) : Except PyError ℝ :=
  match c.loaded_projectile with
  | none => .error (.runtimeError ("No hay proyectil cargado."))
  | some p =>
      let E_stored := c.stored_energy
      let E_useful := c.eficiencia * E_stored
      let m := p.mass
      if E_useful ≤ 0 then .ok 0
      else mathSqrt (2 * E_useful / m)

/-- Method `range_at_angle`: `R = (v * v * sin(2 * theta)) / G`, propagating
the failure of `launch_velocity`. -/
noncomputable def Catapult.range_at_angle (c : Catapult) (angle_deg : ℚ) :
    Except PyError ℝ :=
  match c.launch_velocity with
  | .error e => .error e
  | .ok v => .ok ((v * v * Real.sin (2 * mathRadians angle_deg)) / (G : ℝ))

/-- The dict returned by `simulate_launch`. -/
structure LaunchReport : Type where
  proyectil : Option String
  masa_kg : Option ℚ
  pull_m : ℚ
  K_total_N_per_m : ℚ
  energia_almacenada_J : ℚ
  energia_util_J : ℚ
  velocidad_m_s : ℝ
  angulo_deg : ℚ
  alcance_m : ℝ

/-- Method `simulate_launch`: computes the velocity and the range (each call
propagating the no-projectile failure), then assembles the report; the
projectile name and mass fields are `none` when no projectile is loaded
(a `Projectile` object is always truthy in the source test). -/
noncomputable def Catapult.simulate_launch (c : Catapult) (angle_deg : ℚ) :
    Except PyError LaunchReport :=
  match c.launch_velocity with
  | .error e => .error e
  | .ok v =>
      match c.range_at_angle angle_deg with
      | .error e => .error e
      | .ok R =>
          .ok { proyectil := c.loaded_projectile.map (fun p => p.name),
                masa_kg := c.loaded_projectile.map (fun p => p.mass),
                pull_m := c.pull_distance,
                K_total_N_per_m := c.bands.K_total,
                energia_almacenada_J := c.stored_energy,
                energia_util_J := c.eficiencia * c.stored_energy,
                velocidad_m_s := v,
                angulo_deg := angle_deg,
                alcance_m := R }

/-- State of an `Experiment` object: the wrapped catapult. -/
structure Experiment : Type where
  cat : Catapult

/-- Arithmetic mean as computed by `statistics.mean` on a nonempty list. -/
noncomputable def mean (l : List ℝ) : ℝ :=
  l.sum / (l.length : ℝ)

/-- The `for _ in range(n)` loop body of `run_trials`: each iteration calls
`simulate_launch` and collects the resulting range, any failure propagating. -/
noncomputable def trialLoop (c : Catapult) (angle_deg : ℚ) : ℕ → Except PyError (List ℝ)
  | 0 => .ok []
  | k + 1 =>
      match c.simulate_launch angle_deg with
      | .error e => .error e
      | .ok res =>
          match trialLoop c angle_deg k with
          | .error e => .error e
          | .ok rest => .ok (res.alcance_m :: rest)

/-- The summary dict returned by `run_trials`. -/
structure TrialSummary : Type where
  n : ℤ
  angle_deg : ℚ
  distancias : List ℝ
  media_m : ℝ

/-- Method `run_trials`: raises `ValueError` when `n < 1`; otherwise runs `n`
launches at the given angle and returns count, angle, the per-trial ranges in
trial order and their arithmetic mean. -/
noncomputable def Experiment.run_trials (e : Experiment) (angle_deg : ℚ)
    (n : ℤ := 5) : Except PyError TrialSummary :=
  if n < 1 then .error (.valueError ("n debe ser >= 1"))
  else
    match trialLoop e.cat angle_deg n.toNat with
    | .error er => .error er
    | .ok results =>
        .ok { n := n, angle_deg := angle_deg, distancias := results,
              media_m := mean results }

/-!
Concrete objects of the reference driver in the source's example block:
a 5 g projectile, 4 bands of 200 N/m, an 0.18 m arm, efficiency 0.35.
-/

/-- The driver's projectile, `Projectile(0.005, "pompon 5g")`. -/
def exP : Projectile := { mass := 0.005, name := "pompon 5g" }

/-- The driver's band system, `BandSystem(k_band=200.0, n_bands=4)`. -/
def exBands : BandSystem := { k_band := 200, n_bands := 4 }

/-- The driver's arm, `CatapultArm(length_m=0.18)`. -/
def exArm : CatapultArm := { length := 0.18 }

/-- The driver's catapult right after construction. -/
def exCinit : Catapult :=
  { bands := exBands, arm := exArm, eficiencia := 0.35,
    loaded_projectile := none, pull_distance := 0 }

/-- The driver's catapult after loading the projectile and pulling 3 cm. -/
def exC : Catapult :=
  { bands := exBands, arm := exArm, eficiencia := 0.35,
    loaded_projectile := some exP, pull_distance := 0.03 }

/-- The driver's catapult loaded but not yet pulled (pull distance 0). -/
def exC0 : Catapult :=
  { bands := exBands, arm := exArm, eficiencia := 0.35,
    loaded_projectile := some exP, pull_distance := 0 }

/-!
Helper lemmas about the embedded operations.
-/

lemma K_total_pos (b : BandSystem) (hk : 0 < b.k_band) (hn : 1 ≤ b.n_bands) :
    0 < b.K_total := by
  unfold BandSystem.K_total
  have h1 : (1 : ℚ) ≤ (b.n_bands : ℚ) := by exact_mod_cast hn
  nlinarith

lemma stored_energy_nonneg (c : Catapult) (hK : 0 ≤ c.bands.K_total) :
    0 ≤ c.stored_energy := by
  unfold Catapult.stored_energy
  nlinarith [mul_self_nonneg c.pull_distance]

lemma launch_velocity_none (c : Catapult) (hp : c.loaded_projectile = none) :
    c.launch_velocity = .error (.runtimeError ("No hay proyectil cargado.")) := by
  unfold Catapult.launch_velocity
  rw [hp]

lemma launch_velocity_shape (c : Catapult) (p : Projectile)
    (hp : c.loaded_projectile = some p) :
    (∃ v, c.launch_velocity = .ok v) ∨
    (∃ s, c.launch_velocity = .error (.valueError s)) := by
  unfold Catapult.launch_velocity
  rw [hp]
  by_cases hE : c.eficiencia * c.stored_energy ≤ 0
  · exact Or.inl ⟨0, by simp [hE]⟩
  · unfold mathSqrt
    by_cases hneg : 2 * (c.eficiencia * c.stored_energy) / p.mass < 0
    · exact Or.inr ⟨"math domain error", by simp [hE, hneg]⟩
    · exact Or.inl ⟨Real.sqrt ((2 * (c.eficiencia * c.stored_energy) / p.mass : ℚ) : ℝ),
        by simp [hE, hneg]⟩

lemma exists_launch_velocity_ok (c : Catapult) (p : Projectile)
    (hp : c.loaded_projectile = some p) (hm : 0 < p.mass) :
    ∃ v, c.launch_velocity = .ok v ∧ 0 ≤ v := by
  unfold Catapult.launch_velocity
  rw [hp]
  by_cases hE : c.eficiencia * c.stored_energy ≤ 0
  · exact ⟨0, by simp [hE], le_refl 0⟩
  · have harg : 0 ≤ 2 * (c.eficiencia * c.stored_energy) / p.mass := by
      push_neg at hE
      have h2 : (0 : ℚ) ≤ 2 * (c.eficiencia * c.stored_energy) := by nlinarith
      exact div_nonneg h2 hm.le
    refine ⟨Real.sqrt ((2 * (c.eficiencia * c.stored_energy) / p.mass : ℚ) : ℝ),
      ?_, Real.sqrt_nonneg _⟩
    simp only [mathSqrt, if_neg hE, if_neg (not_lt.mpr harg)]

lemma range_at_angle_ok (c : Catapult) (v : ℝ) (θ : ℚ)
    (h : c.launch_velocity = .ok v) :
    c.range_at_angle θ = .ok ((v * v * Real.sin (2 * mathRadians θ)) / ((G : ℚ) : ℝ)) := by
  unfold Catapult.range_at_angle
  rw [h]

lemma range_at_angle_err (c : Catapult) (e : PyError) (θ : ℚ)
    (h : c.launch_velocity = .error e) :
    c.range_at_angle θ = .error e := by
  unfold Catapult.range_at_angle
  rw [h]

lemma simulate_launch_ok (c : Catapult) (v : ℝ) (θ : ℚ)
    (h : c.launch_velocity = .ok v) :
    c.simulate_launch θ =
      .ok { proyectil := c.loaded_projectile.map (fun p => p.name),
            masa_kg := c.loaded_projectile.map (fun p => p.mass),
            pull_m := c.pull_distance,
            K_total_N_per_m := c.bands.K_total,
            energia_almacenada_J := c.stored_energy,
            energia_util_J := c.eficiencia * c.stored_energy,
            velocidad_m_s := v,
            angulo_deg := θ,
            alcance_m := (v * v * Real.sin (2 * mathRadians θ)) / ((G : ℚ) : ℝ) } := by
  unfold Catapult.simulate_launch
  rw [h, range_at_angle_ok c v θ h]

lemma simulate_launch_err (c : Catapult) (e : PyError) (θ : ℚ)
    (h : c.launch_velocity = .error e) :
    c.simulate_launch θ = .error e := by
  unfold Catapult.simulate_launch
  rw [h]

/-!
Claim theorems.
-/

/-- C7: `set_pull(distance)` raises a ValidationError if and only if the
distance is negative — leaving the catapult state unchanged, since no updated
state is produced on the error path — and for a nonnegative distance
(including 0) it sets `pull_distance` to the given value, touching no other
field. -/
theorem c7_set_pull_validation (c : Catapult) (d : ℚ) :
    ((∃ e, c.set_pull d = .error e) ↔ d < 0) ∧
    (d < 0 → c.set_pull d = .error (.valueError ("La distancia de tracción debe ser >= 0"))) ∧
    (0 ≤ d → c.set_pull d = .ok { c with pull_distance := d }) := by
  unfold Catapult.set_pull
  by_cases hd : d < 0
  · rw [if_pos hd]
    exact ⟨⟨fun _ => hd, fun _ => ⟨_, rfl⟩⟩, fun _ => rfl,
      fun h0 => absurd hd (not_lt.mpr h0)⟩
  · rw [if_neg hd]
    refine ⟨⟨?_, fun h => absurd h hd⟩, fun h => absurd h hd, fun _ => rfl⟩
    rintro ⟨e, he⟩
    exact Except.noConfusion he

/-- Witness for C7: on the driver catapult, pulling -1 m is rejected with the
validation error and pulling 2 m updates exactly the pull distance. -/
theorem c7_set_pull_validation_witness :
    exC.set_pull (-1) = .error (.valueError ("La distancia de tracción debe ser >= 0")) ∧
    exC.set_pull 2 = .ok { exC with pull_distance := 2 } :=
  ⟨(c7_set_pull_validation exC (-1)).2.1 (by norm_num),
   (c7_set_pull_validation exC 2).2.2 (by norm_num)⟩

/-- C4: on a valid catapult with a loaded projectile and pull distance 0,
`launch_velocity()` returns exactly 0 through the zero-energy guard branch,
computing no square root. -/
theorem c4_zero_pull_zero_velocity (c : Catapult) (p : Projectile)
    (hv : c.Valid) (hp : c.loaded_projectile = some p)
    (hx : c.pull_distance = 0) :
    c.launch_velocity = .ok 0 := by
  unfold Catapult.launch_velocity
  rw [hp]
  simp [Catapult.stored_energy, hx]

/-- Witness for C4: the driver catapult before any pull launches at velocity
exactly 0. -/
theorem c4_zero_pull_zero_velocity_witness :
    exC0.launch_velocity = .ok 0 :=
  c4_zero_pull_zero_velocity exC0 exP
    (by norm_num [Catapult.Valid, exC0, exBands]) rfl rfl

/-- C2: `launch_velocity`, `range_at_angle` and `simulate_launch` fail with
the StateError (a `RuntimeError`, a constructor distinct from the
`ValueError` used for validation failures) exactly when no projectile is
loaded; with a projectile loaded none of them produces that error. -/
theorem c2_state_error_iff_no_projectile (c : Catapult) (θ : ℚ) :
    ((∃ s, c.launch_velocity = .error (.runtimeError s)) ↔ c.loaded_projectile = none) ∧
    ((∃ s, c.range_at_angle θ = .error (.runtimeError s)) ↔ c.loaded_projectile = none) ∧
    ((∃ s, c.simulate_launch θ = .error (.runtimeError s)) ↔ c.loaded_projectile = none) ∧
    (∀ s t, PyError.runtimeError s ≠ PyError.valueError t) := by
  have hlv : (∃ s, c.launch_velocity = .error (.runtimeError s)) ↔
      c.loaded_projectile = none := by
    cases hl : c.loaded_projectile with
    | none => exact ⟨fun _ => rfl, fun _ => ⟨_, launch_velocity_none c hl⟩⟩
    | some p =>
        refine ⟨?_, fun h => Option.noConfusion h⟩
        rintro ⟨s, hs⟩
        rcases launch_velocity_shape c p hl with ⟨v, hv2⟩ | ⟨t, ht⟩
        · rw [hv2] at hs
          exact Except.noConfusion hs
        · rw [ht] at hs
          injection hs with hs
          exact PyError.noConfusion hs
  have hra : (∃ s, c.range_at_angle θ = .error (.runtimeError s)) ↔
      c.loaded_projectile = none := by
    cases hl : c.loaded_projectile with
    | none =>
        exact ⟨fun _ => rfl,
          fun _ => ⟨_, range_at_angle_err c _ θ (launch_velocity_none c hl)⟩⟩
    | some p =>
        refine ⟨?_, fun h => Option.noConfusion h⟩
        rintro ⟨s, hs⟩
        rcases launch_velocity_shape c p hl with ⟨v, hv2⟩ | ⟨t, ht⟩
        · rw [range_at_angle_ok c v θ hv2] at hs
          exact Except.noConfusion hs
        · rw [range_at_angle_err c _ θ ht] at hs
          injection hs with hs
          exact PyError.noConfusion hs
  have hsl : (∃ s, c.simulate_launch θ = .error (.runtimeError s)) ↔
      c.loaded_projectile = none := by
    cases hl : c.loaded_projectile with
    | none =>
        exact ⟨fun _ => rfl,
          fun _ => ⟨_, simulate_launch_err c _ θ (launch_velocity_none c hl)⟩⟩
    | some p =>
        refine ⟨?_, fun h => Option.noConfusion h⟩
        rintro ⟨s, hs⟩
        rcases launch_velocity_shape c p hl with ⟨v, hv2⟩ | ⟨t, ht⟩
        · rw [simulate_launch_ok c v θ hv2] at hs
          exact Except.noConfusion hs
        · rw [simulate_launch_err c _ θ ht] at hs
          injection hs with hs
          exact PyError.noConfusion hs
  exact ⟨hlv, hra, hsl, fun s t h => PyError.noConfusion h⟩

/-- C10: whenever `simulate_launch` returns a report, the projectile-name and
mass fields of that report are non-null — the None branches are unreachable
because `launch_velocity` raises first when nothing is loaded. -/
theorem c10_report_fields_nonnull (c : Catapult) (θ : ℚ) (r : LaunchReport)
    (h : c.simulate_launch θ = .ok r) :
    ∃ p, c.loaded_projectile = some p ∧
      r.proyectil = some p.name ∧ r.masa_kg = some p.mass := by
  cases hl : c.loaded_projectile with
  | none =>
      rw [simulate_launch_err c _ θ (launch_velocity_none c hl)] at h
      exact Except.noConfusion h
  | some p =>
      rcases launch_velocity_shape c p hl with ⟨v, hv⟩ | ⟨t, ht⟩
      · rw [simulate_launch_ok c v θ hv] at h
        injection h with h
        subst h
        exact ⟨p, rfl, by simp [hl], by simp [hl]⟩
      · rw [simulate_launch_err c _ θ ht] at h
        exact Except.noConfusion h

/-- Witness for C10: the report of the unpulled driver catapult carries the
projectile name and mass. -/
theorem c10_report_fields_nonnull_witness :
    ∃ r, exC0.simulate_launch 45 = .ok r ∧
      ∃ p, exC0.loaded_projectile = some p ∧
        r.proyectil = some p.name ∧ r.masa_kg = some p.mass := by
  have hv : exC0.launch_velocity = .ok 0 := by
    simp [Catapult.launch_velocity, Catapult.stored_energy, exC0]
  have h := simulate_launch_ok exC0 0 45 hv
  exact ⟨_, h, c10_report_fields_nonnull exC0 45 _ h⟩

/-- C1: on a valid catapult with a loaded projectile of positive mass and a
positive pull distance, `launch_velocity()` returns exactly
`sqrt(2 * efficiency * 0.5 * K_total * x^2 / m)`, a nonnegative value, and
the square root never sees a negative argument (no math domain error). -/
theorem c1_launch_velocity_formula (c : Catapult) (p : Projectile)
    (hv : c.Valid) (hp : c.loaded_projectile = some p)
    (hm : 0 < p.mass) (hx : 0 < c.pull_distance) :
    c.launch_velocity =
      .ok (Real.sqrt (2 * (c.eficiencia : ℝ) *
        (0.5 * (c.bands.K_total : ℝ) * (c.pull_distance : ℝ) ^ 2) / (p.mass : ℝ))) ∧
    (0 : ℝ) ≤ Real.sqrt (2 * (c.eficiencia : ℝ) *
        (0.5 * (c.bands.K_total : ℝ) * (c.pull_distance : ℝ) ^ 2) / (p.mass : ℝ)) := by
  obtain ⟨hef, -, hk, hn⟩ := hv
  have hK : 0 < c.bands.K_total := K_total_pos c.bands hk hn
  have hE : 0 < c.eficiencia * c.stored_energy := by
    unfold Catapult.stored_energy
    exact mul_pos hef (mul_pos (mul_pos (mul_pos (by norm_num) hK) hx) hx)
  have harg : 0 < 2 * (c.eficiencia * c.stored_energy) / p.mass :=
    div_pos (mul_pos (by norm_num) hE) hm
  refine ⟨?_, Real.sqrt_nonneg _⟩
  unfold Catapult.launch_velocity
  rw [hp]
  simp only [if_neg (not_le.mpr hE), mathSqrt, if_neg (not_lt.mpr harg.le)]
  have hcast : ((2 * (c.eficiencia * c.stored_energy) / p.mass : ℚ) : ℝ) =
      2 * (c.eficiencia : ℝ) *
        (0.5 * (c.bands.K_total : ℝ) * (c.pull_distance : ℝ) ^ 2) / (p.mass : ℝ) := by
    unfold Catapult.stored_energy
    push_cast
    ring
  rw [hcast]

/-- Witness for C1: the driver catapult (5 g projectile, 800 N/m total,
efficiency 0.35, 3 cm pull) launches at the closed-form velocity, a
nonnegative value. -/
theorem c1_launch_velocity_formula_witness :
    exC.launch_velocity =
      .ok (Real.sqrt (2 * (exC.eficiencia : ℝ) *
        (0.5 * (exC.bands.K_total : ℝ) * (exC.pull_distance : ℝ) ^ 2) / (exP.mass : ℝ))) ∧
    (0 : ℝ) ≤ Real.sqrt (2 * (exC.eficiencia : ℝ) *
        (0.5 * (exC.bands.K_total : ℝ) * (exC.pull_distance : ℝ) ^ 2) / (exP.mass : ℝ)) :=
  c1_launch_velocity_formula exC exP
    (by norm_num [Catapult.Valid, exC, exBands])
    rfl (by norm_num [exP]) (by norm_num [exC])

/-- C5: for a valid loaded catapult and any angle in [0, 90], the range at
the angle equals the range at its complement, and the range at 45 degrees is
the maximum over the interval. -/
theorem c5_range_symmetry_and_45_max (c : Catapult) (p : Projectile) (θ : ℚ)
    (hv : c.Valid) (hp : c.loaded_projectile = some p) (hm : 0 < p.mass)
    (h0 : 0 ≤ θ) (h90 : θ ≤ 90) :
    c.range_at_angle θ = c.range_at_angle (90 - θ) ∧
    ∀ rθ r45, c.range_at_angle θ = .ok rθ → c.range_at_angle 45 = .ok r45 →
      rθ ≤ r45 := by
  obtain ⟨v, hlv, hv0⟩ := exists_launch_velocity_ok c p hp hm
  have hθ := range_at_angle_ok c v θ hlv
  have hθc := range_at_angle_ok c v (90 - θ) hlv
  have h45 := range_at_angle_ok c v 45 hlv
  have hsin : Real.sin (2 * mathRadians (90 - θ)) = Real.sin (2 * mathRadians θ) := by
    have harg : 2 * mathRadians (90 - θ) = Real.pi - 2 * mathRadians θ := by
      unfold mathRadians
      push_cast
      ring
    rw [harg, Real.sin_pi_sub]
  constructor
  · rw [hθ, hθc, hsin]
  · intro rθ r45 hr hr45
    rw [hθ] at hr
    rw [h45] at hr45
    injection hr with hr
    injection hr45 with hr45
    have hs45 : Real.sin (2 * mathRadians 45) = 1 := by
      have harg : 2 * mathRadians 45 = Real.pi / 2 := by
        unfold mathRadians
        push_cast
        ring
      rw [harg, Real.sin_pi_div_two]
    have hG : (0 : ℝ) < ((G : ℚ) : ℝ) := by
      unfold G
      norm_num
    rw [← hr, ← hr45, hs45, div_le_div_iff_of_pos_right hG]
    nlinarith [Real.sin_le_one (2 * mathRadians θ), mul_self_nonneg v]

/-- Witness for C5: at 30 degrees the driver catapult reaches the same range
as at 60 degrees, and no more than at 45 degrees. -/
theorem c5_range_symmetry_and_45_max_witness :
    exC.range_at_angle 30 = exC.range_at_angle (90 - 30) ∧
    ∀ rθ r45, exC.range_at_angle 30 = .ok rθ → exC.range_at_angle 45 = .ok r45 →
      rθ ≤ r45 :=
  c5_range_symmetry_and_45_max exC exP 30
    (by norm_num [Catapult.Valid, exC, exBands])
    rfl (by norm_num [exP]) (by norm_num) (by norm_num)

/-- C6: for a valid loaded catapult, the range at 0 degrees and the range at
90 degrees are both exactly 0 in the real-valued model. -/
theorem c6_range_zero_at_flat_angles (c : Catapult) (p : Projectile)
    (hv : c.Valid) (hp : c.loaded_projectile = some p) (hm : 0 < p.mass) :
    c.range_at_angle 0 = .ok 0 ∧ c.range_at_angle 90 = .ok 0 := by
  obtain ⟨v, hlv, -⟩ := exists_launch_velocity_ok c p hp hm
  constructor
  · rw [range_at_angle_ok c v 0 hlv]
    have hsin : Real.sin (2 * mathRadians 0) = 0 := by
      have harg : 2 * mathRadians 0 = 0 := by
        unfold mathRadians
        push_cast
        ring
      rw [harg, Real.sin_zero]
    rw [hsin]
    simp
  · rw [range_at_angle_ok c v 90 hlv]
    have hsin : Real.sin (2 * mathRadians 90) = 0 := by
      have harg : 2 * mathRadians 90 = Real.pi := by
        unfold mathRadians
        push_cast
        ring
      rw [harg, Real.sin_pi]
    rw [hsin]
    simp

/-- Witness for C6: the driver catapult ranges 0 at both 0 and 90 degrees. -/
theorem c6_range_zero_at_flat_angles_witness :
    exC.range_at_angle 0 = .ok 0 ∧ exC.range_at_angle 90 = .ok 0 :=
  c6_range_zero_at_flat_angles exC exP
    (by norm_num [Catapult.Valid, exC, exBands])
    rfl (by norm_num [exP])

lemma trialLoop_const_ok (c : Catapult) (θ : ℚ) (rep : LaunchReport)
    (h : c.simulate_launch θ = .ok rep) :
    ∀ k, trialLoop c θ k = .ok (List.replicate k rep.alcance_m) := by
  intro k
  induction k with
  | zero => rfl
  | succ k ih =>
      unfold trialLoop
      rw [h, ih]
      rfl

lemma mean_replicate (k : ℕ) (x : ℝ) (hk : 1 ≤ k) :
    mean (List.replicate k x) = x := by
  unfold mean
  rw [List.sum_replicate, List.length_replicate, nsmul_eq_mul]
  exact mul_div_cancel_left₀ x (Nat.cast_ne_zero.mpr (by omega))

/-- C3: on a valid loaded catapult, `run_trials(angle, n)` with `n >= 1`
succeeds and returns the trial count `n`, the angle, the ordered list of the
`n` per-trial ranges — all equal to the single deterministic range of
`simulate_launch`, since no state changes between trials — and a mean equal
to that common value. -/
theorem c3_run_trials_deterministic (e : Experiment) (p : Projectile) (θ : ℚ)
    (n : ℤ) (hv : e.cat.Valid) (hp : e.cat.loaded_projectile = some p)
    (hm : 0 < p.mass) (hn : 1 ≤ n) :
    ∃ rep : LaunchReport,
      e.cat.simulate_launch θ = .ok rep ∧
      e.run_trials θ n =
        .ok (TrialSummary.mk n θ (List.replicate n.toNat rep.alcance_m)
          rep.alcance_m) ∧
      (List.replicate n.toNat rep.alcance_m).length = n.toNat ∧
      1 ≤ n.toNat := by
  obtain ⟨v, hlv, -⟩ := exists_launch_velocity_ok e.cat p hp hm
  have hsim := simulate_launch_ok e.cat v θ hlv
  refine ⟨_, hsim, ?_, List.length_replicate _ _, by omega⟩
  unfold Experiment.run_trials
  rw [if_neg (by omega), trialLoop_const_ok e.cat θ _ hsim n.toNat]
  dsimp only
  rw [mean_replicate n.toNat _ (by omega)]

/-- Witness for C3: five trials of the driver experiment at 45 degrees yield
five identical ranges and their mean. -/
theorem c3_run_trials_deterministic_witness :
    ∃ rep : LaunchReport,
      Catapult.simulate_launch (Experiment.mk exC).cat 45 = .ok rep ∧
      (Experiment.mk exC).run_trials 45 5 =
        .ok (TrialSummary.mk 5 45 (List.replicate (5 : ℤ).toNat rep.alcance_m)
          rep.alcance_m) ∧
      (List.replicate (5 : ℤ).toNat rep.alcance_m).length = (5 : ℤ).toNat ∧
      1 ≤ (5 : ℤ).toNat :=
  c3_run_trials_deterministic (Experiment.mk exC) exP 45 5
    (by norm_num [Catapult.Valid, exC, exBands])
    rfl (by norm_num [exP]) (by norm_num)

/-- Reachable catapult states: a construction through the validating
constructors (any arm object) followed by any sequence of `load` calls of
validly constructed projectiles and successful `set_pull` calls. -/
inductive Catapult.Reachable : Catapult → Prop where
  | construct : ∀ (kb : ℚ) (nb : ℤ) (bands : BandSystem) (arm : CatapultArm)
      (ef : ℚ) (c : Catapult), BandSystem.make kb nb = .ok bands →
      Catapult.make bands arm ef = .ok c → Catapult.Reachable c
  | load_step : ∀ (c : Catapult) (m : ℚ) (nm : String) (p : Projectile),
      Catapult.Reachable c → Projectile.make m nm = .ok p →
      Catapult.Reachable (c.load p)
  | pull_step : ∀ (c : Catapult) (d : ℚ) (cNew : Catapult),
      Catapult.Reachable c → c.set_pull d = .ok cNew → Catapult.Reachable cNew

lemma bandSystem_make_ok (kb : ℚ) (nb : ℤ) (b : BandSystem)
    (h : BandSystem.make kb nb = .ok b) : 0 < b.k_band ∧ 1 ≤ b.n_bands := by
  unfold BandSystem.make at h
  by_cases hc : kb ≤ 0 ∨ nb < 1
  · rw [if_pos hc] at h
    exact Except.noConfusion h
  · rw [if_neg hc] at h
    injection h with h
    subst h
    push_neg at hc
    exact ⟨hc.1, hc.2⟩

lemma projectile_make_ok (m : ℚ) (nm : String) (p : Projectile)
    (h : Projectile.make m nm = .ok p) : 0 < p.mass := by
  unfold Projectile.make at h
  by_cases hc : m ≤ 0
  · rw [if_pos hc] at h
    exact Except.noConfusion h
  · rw [if_neg hc] at h
    injection h with h
    subst h
    exact lt_of_not_le hc

lemma catapult_make_ok (bands : BandSystem) (arm : CatapultArm) (ef : ℚ)
    (c : Catapult) (h : Catapult.make bands arm ef = .ok c) :
    c.bands = bands ∧ 0 < c.eficiencia ∧ c.eficiencia ≤ 1 ∧
    c.loaded_projectile = none ∧ c.pull_distance = 0 := by
  unfold Catapult.make at h
  by_cases hc : 0 < ef ∧ ef ≤ 1
  · rw [if_neg (not_not.mpr hc)] at h
    injection h with h
    subst h
    exact ⟨rfl, hc.1, hc.2, rfl, rfl⟩
  · rw [if_pos hc] at h
    exact Except.noConfusion h

lemma catapult_set_pull_ok (c : Catapult) (d : ℚ) (cNew : Catapult)
    (h : c.set_pull d = .ok cNew) :
    0 ≤ d ∧ cNew = { c with pull_distance := d } := by
  unfold Catapult.set_pull at h
  by_cases hd : d < 0
  · rw [if_pos hd] at h
    exact Except.noConfusion h
  · rw [if_neg hd] at h
    injection h with h
    exact ⟨not_lt.mp hd, h.symm⟩

/-- C9: every reachable catapult state keeps a nonnegative pull distance, a
positive total stiffness and a positive efficiency, so the stored energy is
nonnegative and — with any loaded projectile, whose mass is positive — the
argument `2 * E_useful / m` fed to the square root is never negative. -/
theorem c9_reachable_invariant (c : Catapult) (h : c.Reachable) :
    0 ≤ c.pull_distance ∧ 0 < c.bands.K_total ∧ 0 < c.eficiencia ∧
    0 ≤ c.stored_energy ∧
    ∀ p, c.loaded_projectile = some p →
      0 < p.mass ∧ 0 ≤ 2 * (c.eficiencia * c.stored_energy) / p.mass := by
  induction h with
  | construct kb nb bands arm ef cc hb hc =>
      obtain ⟨hcb, hef, -, hnone, hpull⟩ := catapult_make_ok bands arm ef cc hc
      obtain ⟨hk, hn⟩ := bandSystem_make_ok kb nb bands hb
      have hK : 0 < cc.bands.K_total := by
        rw [hcb]
        exact K_total_pos bands hk hn
      refine ⟨hpull.ge, hK, hef, stored_energy_nonneg cc hK.le, ?_⟩
      intro p hp
      rw [hnone] at hp
      exact Option.noConfusion hp
  | load_step cc m nm p hr hmk ih =>
      obtain ⟨hpull, hK, hef, hse, -⟩ := ih
      have hfields : (cc.load p).pull_distance = cc.pull_distance ∧
          (cc.load p).bands = cc.bands ∧ (cc.load p).eficiencia = cc.eficiencia ∧
          (cc.load p).loaded_projectile = some p := ⟨rfl, rfl, rfl, rfl⟩
      have hse2 : (cc.load p).stored_energy = cc.stored_energy := rfl
      refine ⟨hpull, hK, hef, by rw [hse2]; exact hse, ?_⟩
      intro q hq
      rw [hfields.2.2.2] at hq
      injection hq with hq
      subst hq
      have hmass := projectile_make_ok m nm p hmk
      refine ⟨hmass, div_nonneg ?_ hmass.le⟩
      rw [hse2]
      nlinarith
  | pull_step cc d cNew hr hsp ih =>
      obtain ⟨-, hK, hef, -, ihp⟩ := ih
      obtain ⟨hd, hnew⟩ := catapult_set_pull_ok cc d cNew hsp
      subst hnew
      have hK2 : (0 : ℚ) < ({ cc with pull_distance := d } : Catapult).bands.K_total := hK
      refine ⟨hd, hK2, hef, stored_energy_nonneg _ hK2.le, ?_⟩
      intro q hq
      have hmass := (ihp q hq).1
      refine ⟨hmass, div_nonneg ?_ hmass.le⟩
      have hse := stored_energy_nonneg ({ cc with pull_distance := d } : Catapult) hK2.le
      nlinarith

/-- Witness for C9: the driver catapult state — constructed, loaded with the
5 g projectile and pulled 3 cm — is reachable and satisfies the invariant. -/
theorem c9_reachable_invariant_witness :
    Catapult.Reachable exC ∧
    (0 ≤ exC.pull_distance ∧ 0 < exC.bands.K_total ∧ 0 < exC.eficiencia ∧
     0 ≤ exC.stored_energy ∧
     ∀ p, exC.loaded_projectile = some p →
       0 < p.mass ∧ 0 ≤ 2 * (exC.eficiencia * exC.stored_energy) / p.mass) := by
  have h1 : BandSystem.make 200 4 = .ok exBands := by
    unfold BandSystem.make
    rw [if_neg (by norm_num)]
    rfl
  have h2 : Catapult.make exBands exArm 0.35 = .ok exCinit := by
    unfold Catapult.make
    rw [if_neg (by norm_num)]
    rfl
  have h3 : Projectile.make 0.005 "pompon 5g" = .ok exP := by
    unfold Projectile.make
    rw [if_neg (by norm_num)]
    rfl
  have h4 : (exCinit.load exP).set_pull 0.03 = .ok exC := by
    unfold Catapult.set_pull
    rw [if_neg (by norm_num)]
    rfl
  have hreach : Catapult.Reachable exC :=
    .pull_step (exCinit.load exP) 0.03 exC
      (.load_step exCinit 0.005 "pompon 5g" exP
        (.construct 200 4 exBands exArm 0.35 exCinit h1 h2) h3)
      h4
  exact ⟨hreach, c9_reachable_invariant exC hreach⟩

/-!
Object-identity model for the default-arm argument of the `Catapult`
constructor.  Python evaluates the default expression in
`def __init__(self, band_system, arm: CatapultArm = CatapultArm(), ...)`
exactly once, when the body of `class Catapult` is executed at module load;
every later `Catapult(...)` call that omits the arm binds the parameter to
that one pre-built object.  Object identity is modelled by a heap address.
-/

/-- Allocation state: the next fresh object address. -/
structure PyHeap : Type where
  nextAddr : ℕ
deriving DecidableEq

/-- Evaluation of the expression `CatapultArm(length)`: validates the length
and allocates a fresh object, returning its address and the grown heap. -/
def evalCatapultArmNew (length_m : ℚ) (h : PyHeap) :
    Except PyError (ℕ × PyHeap) :=
  if length_m ≤ 0 then .error (.valueError ("La longitud del brazo debe ser positiva."))
  else .ok (h.nextAddr, { nextAddr := h.nextAddr + 1 })

/-- The single evaluation of the default expression `CatapultArm()` performed
when the class body of `Catapult` runs, on the module-load heap. -/
def catapultDefaultArm : Except PyError (ℕ × PyHeap) :=
  evalCatapultArmNew 0.2 { nextAddr := 0 }

/-- Source semantics of a `Catapult(band_system)` call with the arm argument
omitted: the parameter is bound to the address of the pre-evaluated default
object; no new `CatapultArm` is allocated, so the heap is unchanged. -/
def catapultNoArmArmAddr (defaultAddr : ℕ) (h : PyHeap) : ℕ × PyHeap :=
  (defaultAddr, h)

/-- Modelled from the spec: the default CatapultArm argument must be
constructed as a fresh value each time a Catapult is created without an
explicit arm — per-call default construction, not a shared static default. -/
def catapultNoArmArmAddrSpec (h : PyHeap) : Except PyError (ℕ × PyHeap) :=
  evalCatapultArmNew 0.2 h

/-- C8 (refuted, code bug): under the source semantics, two consecutive
`Catapult` constructions that omit the arm argument receive the same
`CatapultArm` object — the one allocated once at class-definition time —
whereas under the per-call construction the spec demands, two consecutive
constructions receive arms at distinct addresses. -/
theorem c8_default_arm_shared_not_fresh :
    (∃ a0 h0, catapultDefaultArm = .ok (a0, h0) ∧
      (catapultNoArmArmAddr a0 h0).1 =
        (catapultNoArmArmAddr a0 (catapultNoArmArmAddr a0 h0).2).1) ∧
    (∃ a1 h1 a2 h2,
      catapultNoArmArmAddrSpec { nextAddr := 5 } = .ok (a1, h1) ∧
      catapultNoArmArmAddrSpec h1 = .ok (a2, h2) ∧ a1 ≠ a2) := by
  constructor
  · refine ⟨0, { nextAddr := 1 }, ?_, rfl⟩
    unfold catapultDefaultArm evalCatapultArmNew
    rw [if_neg (by norm_num)]
  · refine ⟨5, { nextAddr := 6 }, 6, { nextAddr := 7 }, ?_, ?_, by omega⟩
    · unfold catapultNoArmArmAddrSpec evalCatapultArmNew
      rw [if_neg (by norm_num)]
    · unfold catapultNoArmArmAddrSpec evalCatapultArmNew
      rw [if_neg (by norm_num)]
